import Mathlib

/-!
Verification of the linkedin_scraper repository's natural-language
specification against a shallow embedding of its Python source.

Python strings are modelled as `List Char`; Python's `str.split(sep)`,
`str.strip()`, `str.lower()`, `str.isdigit()`, the `in` containment test
and string truthiness are embedded as executable Lean functions below.
Fallible operations (pydantic validation, rate-limit detection) return
`Except`; page and DOM lookups performed through the browser-automation
library are modelled as explicit input data recording exactly the
observations that the embedded code reads.

Embedded code, by source file:
* `linkedin_scraper/scrapers/person.py`:
  `_parse_work_times`, `_parse_nested_experience`, the progress-callback
  protocol of `PersonScraper.scrape`, and the `Contact(...)` calls of
  `_get_contacts`.
* `linkedin_scraper/scrapers/company.py`:
  `_parse_dl_definition_list` and the progress-callback protocol of
  `CompanyScraper.scrape`.
* `linkedin_scraper/core/utils.py`:
  `detect_rate_limit`, `extract_text_safe`, `scroll_to_bottom`.
* `linkedin_scraper/models/{person,company,job}.py`:
  the pydantic models, their `linkedin_url` validators and `to_dict`.
-/

namespace LinkedinScraper

/-- Python strings as lists of characters. -/
abbrev PyStr := List Char

/-- Shorthand turning a Lean string literal into the `List Char` model. -/
def pys (s : String) : PyStr := s.toList

/-- Python whitespace test used by `str.strip()`. -/
def isPyWS (c : Char) : Bool := c.isWhitespace

/-- `s.lstrip()`: drop leading whitespace. -/
def pyStripLeft (s : PyStr) : PyStr := s.dropWhile isPyWS

/-- `s.rstrip()`: drop trailing whitespace. -/
def pyStripRight (s : PyStr) : PyStr := (s.reverse.dropWhile isPyWS).reverse

/-- Python `str.strip()`: drop whitespace from both ends. -/
def pyStrip (s : PyStr) : PyStr := pyStripRight (pyStripLeft s)

/-- Python `str.lower()` (ASCII case mapping, which covers every pattern
the embedded code compares against). -/
def pyLower (s : PyStr) : PyStr := s.map Char.toLower

/-- Does `s` start with the character sequence `pat`? -/
def seqStartsWith : PyStr → PyStr → Bool
  | [], _ => true
  | _ :: _, [] => false
  | p :: ps, c :: cs => p == c && seqStartsWith ps cs

/-- Python `pat in s` substring containment. -/
def seqContains (pat : PyStr) : PyStr → Bool
  | [] => seqStartsWith pat []
  | c :: rest => seqStartsWith pat (c :: rest) || seqContains pat rest

/-- Fuel-driven worker for `pySplit`; at least one unit of fuel is spent per
character scanned, so `fuel = s.length` always suffices. -/
def pySplitFuel (sep : PyStr) : Nat → PyStr → PyStr → List PyStr
  | _, [], acc => [acc.reverse]
  | 0, s, acc => [acc.reverse ++ s]
  | fuel + 1, c :: rest, acc =>
    if seqStartsWith sep (c :: rest) then
      acc.reverse :: pySplitFuel sep fuel (rest.drop (sep.length - 1)) []
    else
      pySplitFuel sep fuel rest (c :: acc)

/-- Python `s.split(sep)` for a non-empty separator `sep`: split at every
non-overlapping occurrence, scanning left to right. -/
def pySplit (sep s : PyStr) : List PyStr := pySplitFuel sep s.length s []

/-- Python `str.isdigit()` (ASCII digits). -/
def pyIsDigit (s : PyStr) : Bool := !s.isEmpty && s.all Char.isDigit

/-- The `" - "` separator used by `_parse_work_times`. -/
def dashSep : PyStr := [' ', '-', ' ']

/-! ## `PersonScraper._parse_work_times` (scrapers/person.py) -/

/-- `PersonScraper._parse_work_times`: split the work-times string on `"·"`
into date range and duration, then split the stripped date range on `" - "`
into from-date and to-date.  An empty input yields `(None, None, None)`;
a missing duration yields `None`; a missing `" - "` leaves the whole range
as from-date with an empty to-date. -/
def parseWorkTimes (work_times : PyStr) :
    Option PyStr × Option PyStr × Option PyStr :=
  if work_times.isEmpty then (none, none, none)
  else
    let parts := pySplit ['·'] work_times
    let times := match parts with
      | [] => []
      | p :: _ => pyStrip p
    let duration := match parts with
      | _ :: d :: _ => some (pyStrip d)
      | _ => none
    if seqContains dashSep times then
      let dateParts := pySplit dashSep times
      let fromDate := match dateParts with
        | [] => []
        | p :: _ => pyStrip p
      let toDate := match dateParts with
        | _ :: q :: _ => pyStrip q
        | _ => []
      (some fromDate, some toDate, duration)
    else
      (some times, some [], duration)

/-! ## `CompanyScraper._parse_dl_definition_list` (scrapers/company.py) -/

/-- Website shape: `'http'`/`'www.'`/`'.com'`/`'.io'`/`'.org'` in the
lower-cased value. -/
def isWebsiteValue (value : PyStr) : Bool :=
  seqContains (pys "http") (pyLower value) ||
  seqContains (pys "www.") (pyLower value) ||
  seqContains (pys ".com") (pyLower value) ||
  seqContains (pys ".io") (pyLower value) ||
  seqContains (pys ".org") (pyLower value)

/-- The employee-count patterns checked against the lower-cased value. -/
def sizePatterns : List PyStr :=
  [pys "employee", pys "직원", pys "명", pys "k+", pys ",000"]

/-- Company-size shape: any employee-count pattern in the lower-cased value. -/
def isSizeValue (value : PyStr) : Bool :=
  sizePatterns.any (fun pattern => seqContains pattern (pyLower value))

/-- Founded shape: `value.isdigit() and len(value) == 4`. -/
def isFoundedValue (value : PyStr) : Bool :=
  pyIsDigit value && value.length == 4

/-- The location substrings recognised by the headquarters branch. -/
def hqLocations : List PyStr :=
  [pys "Washington", pys "California", pys "New York", pys "Texas",
   pys "London", pys "Tokyo", pys "Singapore", pys "San Francisco",
   pys "Seattle", pys "Boston", pys "Austin", pys "Berlin", pys "Paris"]

/-- Headquarters shape: a comma in a value shorter than 100 characters, or a
known city/region substring (matched case-sensitively). -/
def isHeadquartersValue (value : PyStr) : Bool :=
  (value.contains ',' && decide (value.length < 100)) ||
  hqLocations.any (fun loc => seqContains loc value)

/-- Outer phone test: at least one digit plus one of `'+'`, `'-'`, `'('`,
`')'` anywhere in the value. -/
def hasPhoneChars (value : PyStr) : Bool :=
  value.any Char.isDigit &&
  [('+' : Char), '-', '(', ')'].any (fun c => value.contains c)

/-- `sum(c.isdigit() for c in value)`. -/
def phoneDigitCount (value : PyStr) : Nat := value.countP Char.isDigit

/-- Industry label keywords (matched against the lower-cased `dt` label). -/
def industryLabelKws : List PyStr :=
  [pys "industry", pys "industries", pys "업계", pys "산업", pys "業界",
   pys "industrie", pys "branche"]

/-- Company-type label keywords. -/
def typeLabelKws : List PyStr := [pys "type", pys "유형", pys "タイプ", pys "typ"]

/-- Specialties label keywords. -/
def specialtiesLabelKws : List PyStr :=
  [pys "special", pys "전문", pys "専門", pys "spécial"]

/-- The mutable `overview` dict threaded through `_get_overview`. -/
structure CompanyOverview where
  website : Option PyStr
  phone : Option PyStr
  headquarters : Option PyStr
  founded : Option PyStr
  industry : Option PyStr
  company_type : Option PyStr
  company_size : Option PyStr
  specialties : Option PyStr
deriving DecidableEq

/-- The initial all-`None` overview dict. -/
def emptyOverview : CompanyOverview :=
  ⟨none, none, none, none, none, none, none, none⟩

/-- One `dt`/`dd` pair as read by `_parse_dl_definition_list`: the two
`inner_text` results plus, for the website branch, whether the `dd` holds a
link and what its `href` attribute returned. -/
structure DtDdPair where
  label : PyStr
  value : PyStr
  ddLinkHref : Option (Option PyStr)
deriving DecidableEq

/-- `value.split('\n')[0].strip()` used when storing a company size. -/
def firstLineStripped (value : PyStr) : PyStr :=
  match pySplit ['\n'] value with
  | [] => []
  | l :: _ => pyStrip l

/-- The per-pair body of `_parse_dl_definition_list`: strip the `dd` value,
skip it when empty, then run the website / size / founded / headquarters /
phone / industry / type / specialties `elif` cascade, each branch storing its
value only when that overview field is still unset. -/
def processDtDd (overview : CompanyOverview) (p : DtDdPair) : CompanyOverview :=
  let value := pyStrip p.value
  if value.isEmpty then overview
  else
    let label := pyLower (pyStrip p.label)
    if isWebsiteValue value then
      if overview.website = none then
        { overview with website := some (match p.ddLinkHref with
            | some href => href.getD value
            | none => value) }
      else overview
    else if isSizeValue value then
      if overview.company_size = none then
        { overview with company_size := some (firstLineStripped value) }
      else overview
    else if isFoundedValue value then
      if overview.founded = none then { overview with founded := some value }
      else overview
    else if isHeadquartersValue value then
      if overview.headquarters = none then
        { overview with headquarters := some value }
      else overview
    else if hasPhoneChars value then
      if 7 ≤ phoneDigitCount value ∧ phoneDigitCount value ≤ 15 then
        if overview.phone = none then { overview with phone := some value }
        else overview
      else overview
    else if industryLabelKws.any (fun kw => seqContains kw label) then
      if overview.industry = none then { overview with industry := some value }
      else overview
    else if typeLabelKws.any (fun kw => seqContains kw label) then
      if overview.company_type = none then
        { overview with company_type := some value }
      else overview
    else if specialtiesLabelKws.any (fun kw => seqContains kw label) then
      if overview.specialties = none then
        { overview with specialties := some value }
      else overview
    else overview

/-- `_parse_dl_definition_list`: fold the per-pair body over all `dt`/`dd`
pairs of the definition list, in document order. -/
def parseDlDefinitionList (pairs : List DtDdPair) (overview : CompanyOverview) :
    CompanyOverview :=
  pairs.foldl processDtDd overview

/-- A phone-shaped `dd` value that also contains a comma: digits with `'+'`
and `'-'` separators, 12 digits in total, plus `", ext. 7"`. -/
def phoneCommaValue : PyStr := pys "+1 206-555-0123, ext. 7"

/-- The `dt`/`dd` pair carrying `phoneCommaValue`. -/
def phoneCommaPair : DtDdPair := ⟨pys "Phone", phoneCommaValue, none⟩

end LinkedinScraper

namespace LinkedinScraper

/-! ## Pydantic models (models/person.py, models/company.py, models/job.py) -/

/-- `models.person.Contact`: `name` is required, the rest optional. -/
structure Contact where
  name : PyStr
  occupation : Option PyStr
  url : Option PyStr
deriving DecidableEq

/-- `models.person.Experience` (all fields optional). -/
structure Experience where
  position_title : Option PyStr
  institution_name : Option PyStr
  linkedin_url : Option PyStr
  from_date : Option PyStr
  to_date : Option PyStr
  duration : Option PyStr
  location : Option PyStr
  description : Option PyStr
deriving DecidableEq

/-- `models.person.Education` (all fields optional). -/
structure Education where
  institution_name : Option PyStr
  degree : Option PyStr
  linkedin_url : Option PyStr
  from_date : Option PyStr
  to_date : Option PyStr
  description : Option PyStr
deriving DecidableEq

/-- `models.person.Accomplishment`: both fields required. -/
structure Accomplishment where
  category : PyStr
  title : PyStr
deriving DecidableEq

/-- The field data of `models.person.Person`. -/
structure PersonData where
  linkedin_url : PyStr
  name : Option PyStr
  location : Option PyStr
  about : Option PyStr
  open_to_work : Bool
  experiences : List Experience
  educations : List Education
  interests : List PyStr
  accomplishments : List Accomplishment
  contacts : List Contact
deriving DecidableEq

/-- `models.company.CompanySummary`. -/
structure CompanySummary where
  linkedin_url : Option PyStr
  name : Option PyStr
  followers : Option PyStr
deriving DecidableEq

/-- `models.company.Employee`: `name` required. -/
structure Employee where
  name : PyStr
  designation : Option PyStr
  linkedin_url : Option PyStr
deriving DecidableEq

/-- The field data of `models.company.Company`. -/
structure CompanyData where
  linkedin_url : PyStr
  name : Option PyStr
  about_us : Option PyStr
  website : Option PyStr
  phone : Option PyStr
  headquarters : Option PyStr
  founded : Option PyStr
  industry : Option PyStr
  company_type : Option PyStr
  company_size : Option PyStr
  specialties : Option PyStr
  headcount : Option Int
  showcase_pages : List CompanySummary
  affiliated_companies : List CompanySummary
  employees : List Employee
deriving DecidableEq

/-- The field data of `models.job.Job`. -/
structure JobData where
  linkedin_url : PyStr
  job_title : Option PyStr
  company : Option PyStr
  company_linkedin_url : Option PyStr
  location : Option PyStr
  posted_date : Option PyStr
  applicant_count : Option PyStr
  job_description : Option PyStr
  benefits : Option PyStr
deriving DecidableEq

/-- The profile-path marker demanded by `Person.validate_linkedin_url`. -/
def personUrlMarker : PyStr := pys "linkedin.com/in/"

/-- The company-path marker demanded by `Company.validate_linkedin_url`. -/
def companyUrlMarker : PyStr := pys "linkedin.com/company/"

/-- The jobs-path marker demanded by `Job.validate_linkedin_url`. -/
def jobUrlMarker : PyStr := pys "linkedin.com/jobs"

/-- `Person.validate_linkedin_url`: reject a URL without the profile-path
marker, otherwise return it unchanged. -/
def validatePersonUrl (v : PyStr) : Except PyStr PyStr :=
  if seqContains personUrlMarker v then Except.ok v
  else Except.error (pys "Must be a valid LinkedIn profile URL (contains /in/)")

/-- `Company.validate_linkedin_url`. -/
def validateCompanyUrl (v : PyStr) : Except PyStr PyStr :=
  if seqContains companyUrlMarker v then Except.ok v
  else Except.error (pys "Must be a valid LinkedIn company URL (contains /company/)")

/-- `Job.validate_linkedin_url`. -/
def validateJobUrl (v : PyStr) : Except PyStr PyStr :=
  if seqContains jobUrlMarker v then Except.ok v
  else Except.error (pys "Must be a valid LinkedIn job URL (contains /jobs)")

/-- Constructing a `Person(...)`: pydantic runs the `linkedin_url` field
validator (no other field has one) and stores the value it returns. -/
def personConstruct (d : PersonData) : Except PyStr PersonData :=
  match validatePersonUrl d.linkedin_url with
  | Except.ok v => Except.ok { d with linkedin_url := v }
  | Except.error e => Except.error e

/-- Constructing a `Company(...)`. -/
def companyConstruct (d : CompanyData) : Except PyStr CompanyData :=
  match validateCompanyUrl d.linkedin_url with
  | Except.ok v => Except.ok { d with linkedin_url := v }
  | Except.error e => Except.error e

/-- Constructing a `Job(...)`. -/
def jobConstruct (d : JobData) : Except PyStr JobData :=
  match validateJobUrl d.linkedin_url with
  | Except.ok v => Except.ok { d with linkedin_url := v }
  | Except.error e => Except.error e

/-- The dictionary produced by `Person.to_dict` (`model_dump`): one entry per
field, nested models dumped recursively with no field renamed or dropped. -/
structure PersonDump where
  linkedin_url : PyStr
  name : Option PyStr
  location : Option PyStr
  about : Option PyStr
  open_to_work : Bool
  experiences : List Experience
  educations : List Education
  interests : List PyStr
  accomplishments : List Accomplishment
  contacts : List Contact
deriving DecidableEq

/-- `Person.to_dict`. -/
def personToDict (p : PersonData) : PersonDump :=
  ⟨p.linkedin_url, p.name, p.location, p.about, p.open_to_work,
   p.experiences, p.educations, p.interests, p.accomplishments, p.contacts⟩

/-- `Person.model_validate` applied to a dumped dictionary: re-runs the
`linkedin_url` validator and rebuilds the model from the dictionary entries. -/
def personModelValidate (du : PersonDump) : Except PyStr PersonData :=
  match validatePersonUrl du.linkedin_url with
  | Except.ok v =>
    Except.ok ⟨v, du.name, du.location, du.about, du.open_to_work,
      du.experiences, du.educations, du.interests, du.accomplishments, du.contacts⟩
  | Except.error e => Except.error e

/-- The dictionary produced by `Company.to_dict`. -/
structure CompanyDump where
  linkedin_url : PyStr
  name : Option PyStr
  about_us : Option PyStr
  website : Option PyStr
  phone : Option PyStr
  headquarters : Option PyStr
  founded : Option PyStr
  industry : Option PyStr
  company_type : Option PyStr
  company_size : Option PyStr
  specialties : Option PyStr
  headcount : Option Int
  showcase_pages : List CompanySummary
  affiliated_companies : List CompanySummary
  employees : List Employee
deriving DecidableEq

/-- `Company.to_dict`. -/
def companyToDict (c : CompanyData) : CompanyDump :=
  ⟨c.linkedin_url, c.name, c.about_us, c.website, c.phone, c.headquarters,
   c.founded, c.industry, c.company_type, c.company_size, c.specialties,
   c.headcount, c.showcase_pages, c.affiliated_companies, c.employees⟩

/-- `Company.model_validate` applied to a dumped dictionary. -/
def companyModelValidate (du : CompanyDump) : Except PyStr CompanyData :=
  match validateCompanyUrl du.linkedin_url with
  | Except.ok v =>
    Except.ok ⟨v, du.name, du.about_us, du.website, du.phone, du.headquarters,
      du.founded, du.industry, du.company_type, du.company_size, du.specialties,
      du.headcount, du.showcase_pages, du.affiliated_companies, du.employees⟩
  | Except.error e => Except.error e

/-- The dictionary produced by `Job.to_dict`. -/
structure JobDump where
  linkedin_url : PyStr
  job_title : Option PyStr
  company : Option PyStr
  company_linkedin_url : Option PyStr
  location : Option PyStr
  posted_date : Option PyStr
  applicant_count : Option PyStr
  job_description : Option PyStr
  benefits : Option PyStr
deriving DecidableEq

/-- `Job.to_dict`. -/
def jobToDict (j : JobData) : JobDump :=
  ⟨j.linkedin_url, j.job_title, j.company, j.company_linkedin_url, j.location,
   j.posted_date, j.applicant_count, j.job_description, j.benefits⟩

/-- `Job.model_validate` applied to a dumped dictionary. -/
def jobModelValidate (du : JobDump) : Except PyStr JobData :=
  match validateJobUrl du.linkedin_url with
  | Except.ok v =>
    Except.ok ⟨v, du.job_title, du.company, du.company_linkedin_url, du.location,
      du.posted_date, du.applicant_count, du.job_description, du.benefits⟩
  | Except.error e => Except.error e

end LinkedinScraper

namespace LinkedinScraper

/-! ## `detect_rate_limit` (core/utils.py) -/

/-- Outcome of `page.locator('body').text_content(timeout=1000)`:
a Playwright timeout, or a returned `Optional[str]`. -/
inductive BodyFetch where
  | timeoutErr : BodyFetch
  | got : Option PyStr → BodyFetch
deriving DecidableEq

/-- The page observations read by `detect_rate_limit`: the current URL, the
number of CAPTCHA iframes matched by its locator, and the body-text fetch. -/
structure RLPage where
  url : PyStr
  captchaIframeCount : Nat
  body : BodyFetch
deriving DecidableEq

/-- `RateLimitError(message, suggested_wait_time)` from core/exceptions.py
(default `suggested_wait_time=300`). -/
structure RateLimitErrorSig where
  message : PyStr
  suggested_wait_time : Nat
deriving DecidableEq

/-- The rate-limit phrases searched for in the lower-cased body text. -/
def rateLimitPhrases : List PyStr :=
  [pys "too many requests", pys "rate limit", pys "slow down",
   pys "try again later"]

/-- URL indicator: `'linkedin.com/checkpoint' in url or 'authwall' in url`. -/
def checkpointIndicator (url : PyStr) : Bool :=
  seqContains (pys "linkedin.com/checkpoint") url || seqContains (pys "authwall") url

/-- The body of the CAPTCHA `try` block: raise `RateLimitError(..., 3600)`
when the CAPTCHA locator count is positive. -/
def captchaCheck (count : Nat) : Except RateLimitErrorSig Unit :=
  if count > 0 then
    Except.error ⟨pys "CAPTCHA challenge detected. Manual intervention required.", 3600⟩
  else Except.ok ()

/-- `detect_rate_limit`: check the URL, the CAPTCHA locator, then the body
text.  The CAPTCHA block runs inside `try ... except Exception: pass`, so any
error it produces — including the `RateLimitError` the block itself raises —
is discarded and never reaches the caller; only the URL and body-text checks
can propagate an error.  There is no internal sleep. -/
def detectRateLimit (page : RLPage) : Except RateLimitErrorSig Unit :=
  if checkpointIndicator page.url then
    Except.error ⟨pys "LinkedIn security checkpoint detected. You may need to verify your identity or wait before continuing.", 3600⟩
  else
    let _swallowed : Except RateLimitErrorSig Unit :=
      captchaCheck page.captchaIframeCount
    match page.body with
    | BodyFetch.timeoutErr => Except.ok ()
    | BodyFetch.got none => Except.ok ()
    | BodyFetch.got (some t) =>
      if rateLimitPhrases.any (fun ph => seqContains ph (pyLower t)) then
        Except.error ⟨pys "Rate limit message detected on page.", 1800⟩
      else Except.ok ()

/-- A page showing a CAPTCHA iframe but no URL or body-text indicator. -/
def captchaOnlyPage : RLPage :=
  ⟨pys "https://www.linkedin.com/feed/", 1, BodyFetch.got (some (pys "Welcome back"))⟩

/-! ## `extract_text_safe` (core/utils.py) -/

/-- Outcome of `page.locator(selector).first.text_content(timeout=timeout)`:
a text (possibly `None`), a Playwright timeout, or any other exception. -/
inductive TextLookup where
  | found : Option PyStr → TextLookup
  | timeoutErr : TextLookup
  | failed : TextLookup
deriving DecidableEq

/-- `extract_text_safe`: `text.strip() if text else default` on success,
the default on a `None` text, on a timeout and on any other exception.
Totality of this function is the embedded form of "never raises". -/
def extractTextSafe (outcome : TextLookup) (default : PyStr) : PyStr :=
  match outcome with
  | TextLookup.found (some s) => if s.isEmpty then default else pyStrip s
  | TextLookup.found none => default
  | TextLookup.timeoutErr => default
  | TextLookup.failed => default

/-! ## `PersonScraper._parse_nested_experience` (scrapers/person.py) -/

/-- One nested position item as read by the loop body: whether
`link.locator("> *")` and the first child's `locator("> *")` returned
anything, the `aria-hidden` span text of each position span (`none` when the
lookup raises or returns `None`, which aborts the item), and the description
`inner_text` when a second link child exists. -/
structure NestedPositionDom where
  hasLinkChildren : Bool
  hasSpanContainer : Bool
  positionSpans : List (Option PyStr)
  descriptionText : Option PyStr
deriving DecidableEq

/-- Reading the guarded span text at index `i`: the code only dereferences
`spans[i]` behind `if len(spans) >= i+1`, keeping `""` otherwise; a `none`
entry models a failed text lookup, which raises and skips the item. -/
def spanTextAt (spans : List (Option PyStr)) (i : Nat) : Option PyStr :=
  match spans[i]? with
  | some t => t
  | none => some []

/-- The loop body of `_parse_nested_experience` for one nested position:
skip the item when it has no link children or no span container or a span
text lookup fails, otherwise build an `Experience` whose employer name and
URL come from the enclosing entry and whose title, work times (run through
`_parse_work_times`) and location come from the item's own spans. -/
def parseNestedItem (company_name : PyStr) (company_url : PyStr)
    (item : NestedPositionDom) : Option Experience :=
  if !item.hasLinkChildren then none
  else if !item.hasSpanContainer then none
  else
    match spanTextAt item.positionSpans 0, spanTextAt item.positionSpans 1,
        spanTextAt item.positionSpans 2 with
    | some title, some workTimes, some loc =>
      let parsed := parseWorkTimes workTimes
      some { position_title := some (pyStrip title)
             institution_name := some (pyStrip company_name)
             linkedin_url := some company_url
             from_date := parsed.1
             to_date := parsed.2.1
             duration := parsed.2.2
             location := some (pyStrip loc)
             description := match item.descriptionText with
               | some dsc => if dsc.isEmpty then none else some (pyStrip dsc)
               | none => none }
    | _, _, _ => none

/-- The inputs of `_parse_nested_experience`: the `company_url` parameter,
whether `first_detail.locator("> *")` is non-empty, the `aria-hidden` span
texts of the outer spans (index 0 is the employer name), and the nested
position items. -/
structure NestedExperienceDom where
  company_url : PyStr
  hasNestedElements : Bool
  outerSpans : List (Option PyStr)
  nestedItems : List NestedPositionDom
deriving DecidableEq

/-- `_parse_nested_experience`: read the employer name from the first outer
span (returning the empty accumulator when that lookup raises), then collect
one `Experience` per nested position the loop body accepts. -/
def parseNestedExperience (dom : NestedExperienceDom) : List Experience :=
  if !dom.hasNestedElements then []
  else
    match spanTextAt dom.outerSpans 0 with
    | none => []
    | some company_name =>
      dom.nestedItems.filterMap (parseNestedItem company_name dom.company_url)

/-- A synthetic employer entry with two sequential roles under one heading. -/
def twoRoleDom : NestedExperienceDom :=
  { company_url := pys "https://www.linkedin.com/company/acme/"
    hasNestedElements := true
    outerSpans := [some (pys "Acme Corp")]
    nestedItems :=
      [{ hasLinkChildren := true
         hasSpanContainer := true
         positionSpans := [some (pys "Senior Engineer"),
           some (pys "Jan 2021 - Dec 2022 · 2 yrs"), some (pys "Berlin")]
         descriptionText := none },
       { hasLinkChildren := true
         hasSpanContainer := true
         positionSpans := [some (pys "Engineer"),
           some (pys "Jan 2019 - Dec 2020 · 2 yrs"), some (pys "Berlin")]
         descriptionText := none }] }

end LinkedinScraper

namespace LinkedinScraper

/-! ## Progress-callback protocol of `PersonScraper.scrape` and
`CompanyScraper.scrape` -/

/-- The four notification points of the `ProgressCallback` interface. -/
inductive ScrapeEvent where
  | start : ScrapeEvent
  | progress : ScrapeEvent
  | complete : ScrapeEvent
  | error : ScrapeEvent
deriving DecidableEq

/-- The `try` body of `PersonScraper.scrape`, one entry of `steps` per
scraping phase: a succeeding phase emits its `on_progress` notification and
the next phase runs; a failing phase raises, landing in the `except` handler
which emits `on_error` (and re-raises `ScrapingError`).  When every phase
succeeds, `on_complete` fires. -/
def personScrapeBody : List Bool → List ScrapeEvent
  | [] => [ScrapeEvent.complete]
  | ok :: rest =>
    if ok then ScrapeEvent.progress :: personScrapeBody rest
    else [ScrapeEvent.error]

/-- The notification trace of `PersonScraper.scrape`: `on_start` first, then
the guarded body. -/
def personScrapeEvents (steps : List Bool) : List ScrapeEvent :=
  ScrapeEvent.start :: personScrapeBody steps

/-- The body of `CompanyScraper.scrape`, which has no `try`/`except` and no
`on_error` call: a failing phase propagates its exception with no further
notification. -/
def companyScrapeBody : List Bool → List ScrapeEvent
  | [] => [ScrapeEvent.complete]
  | ok :: rest =>
    if ok then ScrapeEvent.progress :: companyScrapeBody rest
    else []

/-- The notification trace of `CompanyScraper.scrape`. -/
def companyScrapeEvents (steps : List Bool) : List ScrapeEvent :=
  ScrapeEvent.start :: companyScrapeBody steps

/-- Terminal notifications: `on_complete` or `on_error`. -/
def isTerminalEv : ScrapeEvent → Bool
  | ScrapeEvent.complete => true
  | ScrapeEvent.error => true
  | _ => false

/-- No `on_progress` notification fires after a terminal notification. -/
def noProgressAfterTerminal (tr : List ScrapeEvent) : Prop :=
  ∀ pre ev post, tr = pre ++ ev :: post → isTerminalEv ev = true →
    ScrapeEvent.progress ∉ post

/-! ## `scroll_to_bottom` (core/utils.py) -/

/-- The scroll loop: `heights i` is the pair of `document.body.scrollHeight`
observations of iteration `i` (before the scroll, after the scroll and
pause).  `scrollIterate heights k i` runs up to `k` more iterations starting
at iteration `i` and returns the total number of iterations performed. -/
def scrollIterate (heights : Nat → Nat × Nat) : Nat → Nat → Nat
  | 0, i => i
  | k + 1, i =>
    if (heights i).1 = (heights i).2 then i + 1
    else scrollIterate heights k (i + 1)

/-- `scroll_to_bottom`: iterate scroll-and-pause at most `max_scrolls` times,
breaking as soon as the height after a scroll equals the height before it;
returns the number of iterations performed (the function itself returns
`None` — finishing the loop is its only observable behaviour). -/
def scrollToBottomIterations (heights : Nat → Nat × Nat) (max_scrolls : Nat) : Nat :=
  scrollIterate heights max_scrolls 0

/-- Height observations where the page stops growing at iteration 1. -/
def twoScrollHeights : Nat → Nat × Nat :=
  fun i => (100, if i = 0 then 200 else 100)

/-! ## The contact-extraction interface (claim about `models/__init__.py`,
`models/person.py` and `PersonScraper._get_contacts`) -/

/-- The `__all__` export list of `linkedin_scraper.models.__init__`. -/
def modelsExports : List PyStr :=
  [pys "Person", pys "Experience", pys "Education", pys "Contact",
   pys "Accomplishment", pys "Company", pys "CompanySummary", pys "Employee",
   pys "Job"]

/-- The names `scrapers/person.py` imports from `..models` (line 9). -/
def personScraperModelImports : List PyStr :=
  [pys "Person", pys "Experience", pys "Education", pys "Accomplishment",
   pys "Interest", pys "Contact"]

/-- The keyword arguments of a `Contact(...)` call: the fields the model
declares (`name`, `occupation`, `url`) and the keywords `_get_contacts`
actually passes (`type`, `value`, `label`). -/
structure ContactKwargs where
  name : Option PyStr
  occupation : Option PyStr
  url : Option PyStr
  type : Option PyStr
  value : Option PyStr
  label : Option PyStr
deriving DecidableEq

/-- Pydantic validation of a `Contact(...)` call: unknown keywords are
ignored (default `extra='ignore'`), but the required `name` field must be
supplied or validation fails. -/
def contactModelValidate (kwargs : ContactKwargs) : Except PyStr Contact :=
  match kwargs.name with
  | some n => Except.ok ⟨n, kwargs.occupation, kwargs.url⟩
  | none => Except.error (pys "Field required: name")

/-- A `Contact(type=..., value=..., label=...)` call as performed by
`PersonScraper._get_contacts` — no `name` keyword is passed. -/
def getContactsContactCall (t v : PyStr) (l : Option PyStr) : Except PyStr Contact :=
  contactModelValidate
    { name := none, occupation := none, url := none,
      type := some t, value := some v, label := l }

end LinkedinScraper

namespace LinkedinScraper

/-! ## Helper lemmas about the string model -/

theorem seqStartsWith_self_append (p q : PyStr) : seqStartsWith p (p ++ q) = true := by
  induction p with
  | nil => rfl
  | cons x xs ih => simp [seqStartsWith, ih]

theorem seqContains_of_decomp (sep a b : PyStr) :
    seqContains sep (a ++ (sep ++ b)) = true := by
  induction a with
  | nil =>
    cases hs : sep with
    | nil =>
      cases b with
      | nil => rfl
      | cons c cs => simp [seqContains, seqStartsWith]
    | cons p ps =>
      have h1 : seqStartsWith (p :: ps) ((p :: ps) ++ b) = true :=
        seqStartsWith_self_append _ _
      simp only [List.cons_append] at h1
      simp only [List.nil_append, List.cons_append, seqContains, List.append_eq]
      simp [h1]
  | cons x xs ih =>
    simp only [List.cons_append, seqContains, List.append_eq] at ih ⊢
    simp [ih]

theorem length_dropWhile_le (p : Char → Bool) (s : List Char) :
    (s.dropWhile p).length ≤ s.length := by
  induction s with
  | nil => simp
  | cons x xs ih =>
    by_cases h : p x
    · simp only [List.dropWhile_cons, h, if_true, List.length_cons]
      omega
    · simp [List.dropWhile_cons, h]

theorem dropWhile_eq_self_of_length (p : Char → Bool) (s : List Char)
    (h : (s.dropWhile p).length = s.length) : s.dropWhile p = s := by
  cases s with
  | nil => rfl
  | cons x xs =>
    by_cases hx : p x
    · exfalso
      have h1 := length_dropWhile_le p xs
      simp only [List.dropWhile_cons, hx, if_true, List.length_cons] at h
      omega
    · simp [List.dropWhile_cons, hx]

theorem pyStrip_parts {f : PyStr} (h : pyStrip f = f) :
    pyStripLeft f = f ∧ pyStripRight f = f := by
  have h1 : (pyStripLeft f).length ≤ f.length := length_dropWhile_le _ f
  have h2 : (pyStripRight (pyStripLeft f)).length ≤ (pyStripLeft f).length := by
    unfold pyStripRight
    have := length_dropWhile_le isPyWS (pyStripLeft f).reverse
    simpa using this
  have hlen : (pyStrip f).length = f.length := by rw [h]
  unfold pyStrip at hlen
  have hL : (pyStripLeft f).length = f.length := by omega
  have hLeq : pyStripLeft f = f := dropWhile_eq_self_of_length _ _ hL
  refine ⟨hLeq, ?_⟩
  have h3 := h
  unfold pyStrip at h3
  rw [hLeq] at h3
  exact h3

theorem head_not_ws_of_stripLeft {x : Char} {xs : PyStr}
    (h : pyStripLeft (x :: xs) = x :: xs) : isPyWS x = false := by
  by_cases hx : isPyWS x
  · exfalso
    unfold pyStripLeft at h
    simp only [List.dropWhile_cons, hx, if_true] at h
    have h1 := length_dropWhile_le isPyWS xs
    have h2 : (xs.dropWhile isPyWS).length = (x :: xs).length := by rw [h]
    simp only [List.length_cons] at h2
    omega
  · simpa using hx

theorem revhead_not_ws_of_stripRight {f : PyStr} (h : pyStripRight f = f)
    (hne : f ≠ []) :
    ∃ y ys, f.reverse = y :: ys ∧ isPyWS y = false := by
  have hrev : f.reverse.dropWhile isPyWS = f.reverse := by
    unfold pyStripRight at h
    have := congrArg List.reverse h
    simpa using this
  cases hr : f.reverse with
  | nil =>
    exfalso
    have : f = [] := by simpa using congrArg List.reverse hr
    exact hne this
  | cons y ys =>
    refine ⟨y, ys, rfl, ?_⟩
    rw [hr] at hrev
    exact head_not_ws_of_stripLeft hrev

theorem pyStripLeft_keep {f : PyStr} (r : PyStr) (hf : pyStripLeft f = f)
    (hf0 : f ≠ []) : pyStripLeft (f ++ r) = f ++ r := by
  cases f with
  | nil => exact absurd rfl hf0
  | cons x xs =>
    have hx : isPyWS x = false := head_not_ws_of_stripLeft hf
    unfold pyStripLeft
    simp [List.dropWhile_cons, hx]

theorem pyStrip_sandwich {f t : PyStr} (mid : PyStr)
    (hf : pyStrip f = f) (ht : pyStrip t = t) (hf0 : f ≠ []) (ht0 : t ≠ []) :
    pyStrip (f ++ mid ++ t) = f ++ mid ++ t := by
  obtain ⟨hfL, _⟩ := pyStrip_parts hf
  obtain ⟨_, htR⟩ := pyStrip_parts ht
  obtain ⟨y, ys, hyrev, hyws⟩ := revhead_not_ws_of_stripRight htR ht0
  unfold pyStrip
  rw [List.append_assoc, pyStripLeft_keep (mid ++ t) hfL hf0, ← List.append_assoc]
  unfold pyStripRight
  have hR : (f ++ mid ++ t).reverse = y :: (ys ++ (mid.reverse ++ f.reverse)) := by
    rw [List.reverse_append, List.reverse_append, hyrev]
    simp
  rw [hR, List.dropWhile_cons]
  simp only [hyws, Bool.false_eq_true, if_false]
  rw [← hR, List.reverse_reverse]

theorem pyStrip_sandwich_sp {f t : PyStr} (mid : PyStr)
    (hf : pyStrip f = f) (ht : pyStrip t = t) (hf0 : f ≠ []) (ht0 : t ≠ []) :
    pyStrip (f ++ mid ++ t ++ [' ']) = f ++ mid ++ t := by
  obtain ⟨hfL, _⟩ := pyStrip_parts hf
  obtain ⟨_, htR⟩ := pyStrip_parts ht
  obtain ⟨y, ys, hyrev, hyws⟩ := revhead_not_ws_of_stripRight htR ht0
  unfold pyStrip
  rw [List.append_assoc, List.append_assoc, pyStripLeft_keep _ hfL hf0,
    ← List.append_assoc, ← List.append_assoc]
  unfold pyStripRight
  have hR : (f ++ mid ++ t ++ [' ']).reverse =
      ' ' :: (y :: (ys ++ (mid.reverse ++ f.reverse))) := by
    rw [List.reverse_append, List.reverse_append, List.reverse_append, hyrev]
    simp
  rw [hR, List.dropWhile_cons]
  have hsp : isPyWS ' ' = true := by decide
  simp only [hsp, if_true]
  rw [List.dropWhile_cons]
  simp only [hyws, Bool.false_eq_true, if_false]
  have hR2 : y :: (ys ++ (mid.reverse ++ f.reverse)) = (f ++ mid ++ t).reverse := by
    rw [List.reverse_append, List.reverse_append, hyrev]
    simp
  rw [hR2, List.reverse_reverse]

theorem pySplitFuel_congr (sep : PyStr) :
    ∀ (fuel : Nat) (s acc : PyStr) (fuel' : Nat), s.length ≤ fuel → s.length ≤ fuel' →
      pySplitFuel sep fuel s acc = pySplitFuel sep fuel' s acc := by
  intro fuel
  induction fuel with
  | zero =>
    intro s acc fuel' h h'
    cases s with
    | nil => cases fuel' <;> rfl
    | cons c rest => simp at h
  | succ f ih =>
    intro s acc fuel' h h'
    cases s with
    | nil => cases fuel' <;> rfl
    | cons c rest =>
      cases fuel' with
      | zero => simp at h'
      | succ f' =>
        simp only [pySplitFuel]
        by_cases hsw : seqStartsWith sep (c :: rest) = true
        · simp only [hsw, if_true]
          have hd : (rest.drop (sep.length - 1)).length ≤ rest.length := by
            simp [List.length_drop]
          simp only [List.length_cons] at h h'
          rw [ih (rest.drop (sep.length - 1)) [] f' (by omega) (by omega)]
        · simp only [Bool.not_eq_true] at hsw
          simp only [hsw, Bool.false_eq_true, if_false]
          simp only [List.length_cons] at h h'
          exact ih rest (c :: acc) f' (by omega) (by omega)

theorem pySplitFuel_single_no (c : Char) :
    ∀ (fuel : Nat) (s acc : PyStr), s.length ≤ fuel → c ∉ s →
      pySplitFuel [c] fuel s acc = [acc.reverse ++ s] := by
  intro fuel
  induction fuel with
  | zero =>
    intro s acc h hm
    cases s with
    | nil => simp [pySplitFuel]
    | cons x rest => simp at h
  | succ f ih =>
    intro s acc h hm
    cases s with
    | nil => simp [pySplitFuel]
    | cons x rest =>
      have hx : (c == x) = false := by
        simp only [beq_eq_false_iff_ne, ne_eq]
        intro hcx
        exact hm (hcx ▸ List.mem_cons_self x rest)
      simp only [pySplitFuel, seqStartsWith, hx, Bool.false_and, Bool.false_eq_true,
        if_false]
      have : pySplitFuel [c] f rest (x :: acc) = [(x :: acc).reverse ++ rest] := by
        apply ih
        · simp only [List.length_cons] at h; omega
        · intro hmem; exact hm (List.mem_cons_of_mem x hmem)
      rw [this]
      simp

theorem pySplit_single_no {c : Char} {s : PyStr} (hm : c ∉ s) :
    pySplit [c] s = [s] := by
  have := pySplitFuel_single_no c s.length s [] (le_refl _) hm
  simpa [pySplit] using this

theorem pySplitFuel_single_boundary (c : Char) :
    ∀ (a : PyStr) (fuel : Nat) (b acc : PyStr),
      a.length + 1 + b.length ≤ fuel → c ∉ a →
      pySplitFuel [c] fuel (a ++ c :: b) acc =
        (acc.reverse ++ a) :: pySplit [c] b := by
  intro a
  induction a with
  | nil =>
    intro fuel b acc h hm
    cases fuel with
    | zero => simp at h
    | succ f =>
      simp only [List.nil_append, pySplitFuel, seqStartsWith, beq_self_eq_true,
        Bool.true_and, if_true]
      have hdrop : b.drop ((([c] : PyStr).length) - 1) = b := by simp
      simp only [List.length_cons, List.length_nil] at *
      rw [show (1 - 1 : Nat) = 0 by rfl, List.drop_zero]
      rw [pySplitFuel_congr [c] f b [] b.length (by simp at h; omega) (le_refl _)]
      simp [pySplit]
  | cons x a' ih =>
    intro fuel b acc h hm
    cases fuel with
    | zero => simp at h
    | succ f =>
      have hx : (c == x) = false := by
        simp only [beq_eq_false_iff_ne, ne_eq]
        intro hcx
        exact hm (hcx ▸ List.mem_cons_self x a')
      simp only [List.cons_append, pySplitFuel, seqStartsWith, hx, Bool.false_and,
        Bool.false_eq_true, if_false, List.append_eq]
      have := ih f b (x :: acc) (by simp only [List.length_cons] at h ⊢; omega)
        (fun hmem => hm (List.mem_cons_of_mem x hmem))
      rw [this]
      simp

theorem pySplit_single_boundary {c : Char} {a : PyStr} (b : PyStr) (hm : c ∉ a) :
    pySplit [c] (a ++ c :: b) = a :: pySplit [c] b := by
  have := pySplitFuel_single_boundary c a (a ++ c :: b).length b []
    (by simp only [List.length_append, List.length_cons]; omega) hm
  simpa [pySplit] using this

theorem seqStartsWith_nil (s : PyStr) : seqStartsWith [] s = true := by
  cases s <;> rfl

theorem seqStartsWith_dash_within (x : Char) (a' b : PyStr) (hm : '-' ∉ x :: a') :
    seqStartsWith dashSep (x :: (a' ++ (dashSep ++ b))) = false := by
  cases a' with
  | nil =>
    have hds : ('-' == ' ') = false := rfl
    simp [dashSep, seqStartsWith, hds]
  | cons y a'' =>
    have hy : ('-' == y) = false := by
      simp only [beq_eq_false_iff_ne, ne_eq]
      intro hcy
      apply hm
      rw [hcy]
      exact List.mem_cons_of_mem x (List.mem_cons_self y a'')
    simp [dashSep, seqStartsWith, hy]

theorem seqStartsWith_dash_no (x : Char) (rest : PyStr) (hm : '-' ∉ x :: rest) :
    seqStartsWith dashSep (x :: rest) = false := by
  cases rest with
  | nil => simp [dashSep, seqStartsWith]
  | cons y rest' =>
    have hy : ('-' == y) = false := by
      simp only [beq_eq_false_iff_ne, ne_eq]
      intro hcy
      apply hm
      rw [hcy]
      exact List.mem_cons_of_mem x (List.mem_cons_self y rest')
    simp [dashSep, seqStartsWith, hy]

theorem pySplitFuel_dash_no :
    ∀ (fuel : Nat) (s acc : PyStr), s.length ≤ fuel → '-' ∉ s →
      pySplitFuel dashSep fuel s acc = [acc.reverse ++ s] := by
  intro fuel
  induction fuel with
  | zero =>
    intro s acc h hm
    cases s with
    | nil => simp [pySplitFuel]
    | cons x rest => simp at h
  | succ f ih =>
    intro s acc h hm
    cases s with
    | nil => simp [pySplitFuel]
    | cons x rest =>
      have hsw := seqStartsWith_dash_no x rest hm
      simp only [pySplitFuel, hsw, Bool.false_eq_true, if_false]
      have : pySplitFuel dashSep f rest (x :: acc) = [(x :: acc).reverse ++ rest] := by
        apply ih
        · simp only [List.length_cons] at h; omega
        · intro hmem; exact hm (List.mem_cons_of_mem x hmem)
      rw [this]
      simp

theorem pySplit_dash_no {s : PyStr} (hm : '-' ∉ s) : pySplit dashSep s = [s] := by
  have := pySplitFuel_dash_no s.length s [] (le_refl _) hm
  simpa [pySplit] using this

theorem pySplitFuel_dash_boundary :
    ∀ (a : PyStr) (fuel : Nat) (b acc : PyStr),
      a.length + 3 + b.length ≤ fuel → '-' ∉ a →
      pySplitFuel dashSep fuel (a ++ (dashSep ++ b)) acc =
        (acc.reverse ++ a) :: pySplit dashSep b := by
  intro a
  induction a with
  | nil =>
    intro fuel b acc h hm
    cases fuel with
    | zero => simp at h
    | succ f =>
      have hb : ([] : PyStr) ++ (dashSep ++ b) = ' ' :: ('-' :: (' ' :: b)) := rfl
      have hsw : seqStartsWith dashSep (' ' :: ('-' :: (' ' :: b))) = true := by
        simp [dashSep, seqStartsWith, seqStartsWith_nil]
      have hd : List.drop (dashSep.length - 1) ('-' :: (' ' :: b)) = b := rfl
      rw [hb]
      simp only [pySplitFuel, hsw, if_true]
      rw [hd,
        pySplitFuel_congr dashSep f b [] b.length
          (by simp only [List.length_nil] at h; omega) (le_refl _)]
      simp [pySplit]
  | cons x a _ih =>
    intro fuel b acc h hm
    cases fuel with
    | zero => simp at h
    | succ f =>
      have hsw := seqStartsWith_dash_within x a b hm
      simp only [List.cons_append, pySplitFuel, hsw, Bool.false_eq_true, if_false,
        List.append_eq]
      have := _ih f b (x :: acc) (by simp only [List.length_cons] at h ⊢; omega)
        (fun hmem => hm (List.mem_cons_of_mem x hmem))
      simp only [List.append_eq] at this
      rw [this]
      simp

theorem pySplit_dash_boundary {a : PyStr} (b : PyStr) (hm : '-' ∉ a) :
    pySplit dashSep (a ++ (dashSep ++ b)) = a :: pySplit dashSep b := by
  have := pySplitFuel_dash_boundary a (a ++ (dashSep ++ b)).length b []
    (by simp only [List.length_append, dashSep, List.length_cons, List.length_nil]; omega) hm
  simpa [pySplit] using this

theorem pyStrip_cons_space (s : PyStr) : pyStrip (' ' :: s) = pyStrip s := by
  unfold pyStrip pyStripLeft
  simp [List.dropWhile_cons, show isPyWS ' ' = true from rfl]

theorem parseWorkTimes_general (f t d : PyStr)
    (hfs : pyStrip f = f) (hts : pyStrip t = t) (hds : pyStrip d = d)
    (hf0 : f ≠ []) (ht0 : t ≠ [])
    (hfd : '·' ∉ f) (htd : '·' ∉ t) (hdd : '·' ∉ d)
    (hfh : '-' ∉ f) (hth : '-' ∉ t) :
    parseWorkTimes (f ++ pys " - " ++ t ++ pys " · " ++ d) =
        (some f, some t, some d) ∧
    parseWorkTimes (f ++ pys " - " ++ t) = (some f, some t, none) := by
  have hdsh : pys " - " = dashSep := rfl
  have hdot : pys " · " = [' ', '·', ' '] := rfl
  constructor
  · -- with duration
    have hform : f ++ pys " - " ++ t ++ pys " · " ++ d =
        (f ++ dashSep ++ t ++ [' ']) ++ '·' :: (' ' :: d) := by
      rw [hdsh, hdot]
      simp [List.append_assoc]
    rw [hform]
    have hne : ((f ++ dashSep ++ t ++ [' ']) ++ '·' :: (' ' :: d)).isEmpty = false := by
      cases f with
      | nil => exact absurd rfl hf0
      | cons x xs => rfl
    have hnotinA : '·' ∉ f ++ dashSep ++ t ++ [' '] := by
      simp only [List.mem_append, dashSep]
      push_neg
      refine ⟨⟨⟨hfd, ?_⟩, htd⟩, ?_⟩ <;> decide
    have hnotinB : '·' ∉ ' ' :: d := by
      intro hmem
      rcases List.mem_cons.mp hmem with h | h
      · exact absurd h (by decide)
      · exact hdd h
    have hparts : pySplit ['·'] ((f ++ dashSep ++ t ++ [' ']) ++ '·' :: (' ' :: d)) =
        [f ++ dashSep ++ t ++ [' '], ' ' :: d] := by
      rw [pySplit_single_boundary (' ' :: d) hnotinA, pySplit_single_no hnotinB]
    have htimes : pyStrip (f ++ dashSep ++ t ++ [' ']) = f ++ dashSep ++ t :=
      pyStrip_sandwich_sp dashSep hfs hts hf0 ht0
    have hdur : pyStrip (' ' :: d) = d := by rw [pyStrip_cons_space, hds]
    have hcont : seqContains dashSep (f ++ dashSep ++ t) = true := by
      rw [List.append_assoc]
      exact seqContains_of_decomp dashSep f t
    have hdparts : pySplit dashSep (f ++ dashSep ++ t) = [f, t] := by
      rw [List.append_assoc, pySplit_dash_boundary t hfh, pySplit_dash_no hth]
    unfold parseWorkTimes
    rw [hne]
    simp only [Bool.false_eq_true, if_false, hparts, htimes, hdur, hcont, if_true,
      hdparts, hfs, hts]
  · -- without duration
    have hform : f ++ pys " - " ++ t = f ++ dashSep ++ t := by rw [hdsh]
    rw [hform]
    have hne : (f ++ dashSep ++ t).isEmpty = false := by
      cases f with
      | nil => exact absurd rfl hf0
      | cons x xs => rfl
    have hnotin : '·' ∉ f ++ dashSep ++ t := by
      simp only [List.mem_append, dashSep]
      push_neg
      refine ⟨⟨hfd, ?_⟩, htd⟩
      decide
    have hparts : pySplit ['·'] (f ++ dashSep ++ t) = [f ++ dashSep ++ t] :=
      pySplit_single_no hnotin
    have htimes : pyStrip (f ++ dashSep ++ t) = f ++ dashSep ++ t :=
      pyStrip_sandwich dashSep hfs hts hf0 ht0
    have hcont : seqContains dashSep (f ++ dashSep ++ t) = true := by
      rw [List.append_assoc]
      exact seqContains_of_decomp dashSep f t
    have hdparts : pySplit dashSep (f ++ dashSep ++ t) = [f, t] := by
      rw [List.append_assoc, pySplit_dash_boundary t hfh, pySplit_dash_no hth]
    unfold parseWorkTimes
    rw [hne]
    simp only [Bool.false_eq_true, if_false, hparts, htimes, hcont, if_true,
      hdparts, hfs, hts]

end LinkedinScraper

namespace LinkedinScraper

/-! ## Claim C1 -/

/-- C1: for every work-time string of the form `<from> - <to> · <duration>`
(the parts free of the separator characters), `_parse_work_times` returns the
whitespace-trimmed triple; with no `·` duration suffix the duration is
`None`; in particular `"Jan 2020 - Dec 2022 · 2 yrs 11 mos"` yields
`("Jan 2020", "Dec 2022", "2 yrs 11 mos")` and `"2015 - Present"` yields
`("2015", "Present", None)`. -/
theorem claim_C1_parse_work_times (f t d : PyStr)
    (hfs : pyStrip f = f) (hts : pyStrip t = t) (hds : pyStrip d = d)
    (hf0 : f ≠ []) (ht0 : t ≠ [])
    (hfd : '·' ∉ f) (htd : '·' ∉ t) (hdd : '·' ∉ d)
    (hfh : '-' ∉ f) (hth : '-' ∉ t) :
    parseWorkTimes (f ++ pys " - " ++ t ++ pys " · " ++ d) =
        (some f, some t, some d) ∧
    parseWorkTimes (f ++ pys " - " ++ t) = (some f, some t, none) ∧
    parseWorkTimes (pys "Jan 2020 - Dec 2022 · 2 yrs 11 mos") =
        (some (pys "Jan 2020"), some (pys "Dec 2022"), some (pys "2 yrs 11 mos")) ∧
    parseWorkTimes (pys "2015 - Present") =
        (some (pys "2015"), some (pys "Present"), none) := by
  have h := parseWorkTimes_general f t d hfs hts hds hf0 ht0 hfd htd hdd hfh hth
  exact ⟨h.1, h.2, by decide, by decide⟩

/-- Witness for C1 at `from = "Jan 2020"`, `to = "Dec 2022"`,
`duration = "2 yrs 11 mos"`. -/
theorem claim_C1_witness :
    (pyStrip (pys "Jan 2020") = pys "Jan 2020" ∧
     pyStrip (pys "Dec 2022") = pys "Dec 2022" ∧
     pyStrip (pys "2 yrs 11 mos") = pys "2 yrs 11 mos" ∧
     pys "Jan 2020" ≠ [] ∧ pys "Dec 2022" ≠ [] ∧
     '·' ∉ pys "Jan 2020" ∧ '·' ∉ pys "Dec 2022" ∧ '·' ∉ pys "2 yrs 11 mos" ∧
     '-' ∉ pys "Jan 2020" ∧ '-' ∉ pys "Dec 2022") ∧
    (parseWorkTimes (pys "Jan 2020" ++ pys " - " ++ pys "Dec 2022" ++
        pys " · " ++ pys "2 yrs 11 mos") =
        (some (pys "Jan 2020"), some (pys "Dec 2022"), some (pys "2 yrs 11 mos")) ∧
     parseWorkTimes (pys "Jan 2020" ++ pys " - " ++ pys "Dec 2022") =
        (some (pys "Jan 2020"), some (pys "Dec 2022"), none) ∧
     parseWorkTimes (pys "Jan 2020 - Dec 2022 · 2 yrs 11 mos") =
        (some (pys "Jan 2020"), some (pys "Dec 2022"), some (pys "2 yrs 11 mos")) ∧
     parseWorkTimes (pys "2015 - Present") =
        (some (pys "2015"), some (pys "Present"), none)) :=
  ⟨⟨by decide, by decide, by decide, by decide, by decide, by decide, by decide,
    by decide, by decide, by decide⟩,
   claim_C1_parse_work_times (pys "Jan 2020") (pys "Dec 2022") (pys "2 yrs 11 mos")
     (by decide) (by decide) (by decide) (by decide) (by decide) (by decide)
     (by decide) (by decide) (by decide) (by decide)⟩

end LinkedinScraper

namespace LinkedinScraper

/-! ## Claim C2 -/

theorem mem_of_seqContains_head {p : Char} {ps s : PyStr}
    (h : seqContains (p :: ps) s = true) : p ∈ s := by
  induction s with
  | nil => simp [seqContains, seqStartsWith] at h
  | cons c rest ih =>
    simp only [seqContains, Bool.or_eq_true] at h
    rcases h with h | h
    · simp only [seqStartsWith, Bool.and_eq_true, beq_iff_eq] at h
      rw [h.1]
      exact List.mem_cons_self c rest
    · exact List.mem_cons_of_mem c (ih h)

theorem seqContains_eq_false_of_head_notin {p : Char} {ps s : PyStr}
    (h : p ∉ s) : seqContains (p :: ps) s = false := by
  cases hc : seqContains (p :: ps) s
  · rfl
  · exact absurd (mem_of_seqContains_head hc) h

theorem toLower_digit (c : Char) (h : c.isDigit = true) : c.toLower = c := by
  simp only [Char.isDigit, Bool.and_eq_true, decide_eq_true_eq] at h
  obtain ⟨h1, h2⟩ := h
  simp only [Char.toLower]
  split
  · next hcond =>
    exfalso
    obtain ⟨h3, _⟩ := hcond
    have hle : c.val.toNat ≤ (57 : UInt32).toNat := UInt32.le_def.mp h2
    have h57 : (57 : UInt32).toNat = 57 := rfl
    have htoNat : c.toNat = c.val.toNat := rfl
    omega
  · rfl

theorem notin_lower_of_digits {v : PyStr} (hv : v.all Char.isDigit = true)
    {ch : Char} (hch : ch.isDigit = false) : ch ∉ pyLower v := by
  intro hmem
  obtain ⟨c, hc, hcl⟩ := List.mem_map.mp hmem
  have hcd : c.isDigit = true := List.all_eq_true.mp hv c hc
  rw [toLower_digit c hcd] at hcl
  rw [hcl] at hcd
  rw [hcd] at hch
  exact absurd hch (by simp)

theorem all_digits_of_pyIsDigit {v : PyStr} (h : pyIsDigit v = true) :
    v.all Char.isDigit = true := by
  simp only [pyIsDigit, Bool.and_eq_true] at h
  exact h.2

theorem isEmpty_false_of_pyIsDigit {v : PyStr} (h : pyIsDigit v = true) :
    v.isEmpty = false := by
  simp only [pyIsDigit, Bool.and_eq_true, Bool.not_eq_eq_eq_not, Bool.not_true] at h
  exact h.1

theorem isWebsiteValue_of_digits {v : PyStr} (h : pyIsDigit v = true) :
    isWebsiteValue v = false := by
  have hall := all_digits_of_pyIsDigit h
  have h1 : seqContains (pys "http") (pyLower v) = false :=
    seqContains_eq_false_of_head_notin (notin_lower_of_digits hall (by decide))
  have h2 : seqContains (pys "www.") (pyLower v) = false :=
    seqContains_eq_false_of_head_notin (notin_lower_of_digits hall (by decide))
  have h3 : seqContains (pys ".com") (pyLower v) = false :=
    seqContains_eq_false_of_head_notin (notin_lower_of_digits hall (by decide))
  have h4 : seqContains (pys ".io") (pyLower v) = false :=
    seqContains_eq_false_of_head_notin (notin_lower_of_digits hall (by decide))
  have h5 : seqContains (pys ".org") (pyLower v) = false :=
    seqContains_eq_false_of_head_notin (notin_lower_of_digits hall (by decide))
  simp [isWebsiteValue, h1, h2, h3, h4, h5]

theorem isSizeValue_of_digits {v : PyStr} (h : pyIsDigit v = true) :
    isSizeValue v = false := by
  have hall := all_digits_of_pyIsDigit h
  have h1 : seqContains (pys "employee") (pyLower v) = false :=
    seqContains_eq_false_of_head_notin (notin_lower_of_digits hall (by decide))
  have h2 : seqContains (pys "직원") (pyLower v) = false :=
    seqContains_eq_false_of_head_notin (notin_lower_of_digits hall (by decide))
  have h3 : seqContains (pys "명") (pyLower v) = false :=
    seqContains_eq_false_of_head_notin (notin_lower_of_digits hall (by decide))
  have h4 : seqContains (pys "k+") (pyLower v) = false :=
    seqContains_eq_false_of_head_notin (notin_lower_of_digits hall (by decide))
  have h5 : seqContains (pys ",000") (pyLower v) = false :=
    seqContains_eq_false_of_head_notin (notin_lower_of_digits hall (by decide))
  simp [isSizeValue, sizePatterns, h1, h2, h3, h4, h5]

theorem isFoundedValue_false_of_phone_chars {v : PyStr}
    (h : hasPhoneChars v = true) : isFoundedValue v = false := by
  simp only [hasPhoneChars, Bool.and_eq_true] at h
  obtain ⟨-, hsep⟩ := h
  obtain ⟨c, hcmem, hcv⟩ := List.any_eq_true.mp hsep
  have hcv' : c ∈ v := by simpa using hcv
  cases hfo : isFoundedValue v
  · rfl
  · exfalso
    have hdig : pyIsDigit v = true := by
      simp only [isFoundedValue, Bool.and_eq_true] at hfo
      exact hfo.1
    have hall := all_digits_of_pyIsDigit hdig
    have hcd : c.isDigit = true := List.all_eq_true.mp hall c hcv'
    simp only [List.mem_cons, List.not_mem_nil, or_false] at hcmem
    rcases hcmem with rfl | rfl | rfl | rfl <;> exact absurd hcd (by decide)

/-- C2 (amended): for a `dt`/`dd` pair whose stripped value does not match
the website pattern — an employee-count value is stored into `company_size`
(first line, stripped), an all-digit 4-character value into `founded`, and a
value with digits, a phone separator and 7–15 digits into `phone` provided it
matches neither the company-size pattern nor the headquarters pattern (a
comma in a value under 100 characters, or a known location substring), which
are checked first — each branch only when the field is still unset. -/
theorem claim_C2_classification (ov : CompanyOverview) (p : DtDdPair) :
    (pyStrip p.value ≠ [] → isWebsiteValue (pyStrip p.value) = false →
      isSizeValue (pyStrip p.value) = true → ov.company_size = none →
      (processDtDd ov p).company_size =
        some (firstLineStripped (pyStrip p.value))) ∧
    (isFoundedValue (pyStrip p.value) = true → ov.founded = none →
      (processDtDd ov p).founded = some (pyStrip p.value)) ∧
    (isWebsiteValue (pyStrip p.value) = false →
      isSizeValue (pyStrip p.value) = false →
      isHeadquartersValue (pyStrip p.value) = false →
      hasPhoneChars (pyStrip p.value) = true →
      7 ≤ phoneDigitCount (pyStrip p.value) →
      phoneDigitCount (pyStrip p.value) ≤ 15 → ov.phone = none →
      (processDtDd ov p).phone = some (pyStrip p.value)) := by
  refine ⟨?_, ?_, ?_⟩
  · intro hne hweb hsize hcs
    have hemp : (pyStrip p.value).isEmpty = false := by
      simp [List.isEmpty_eq_false, hne]
    simp [processDtDd, hemp, hweb, hsize, hcs]
  · intro hfound hfo
    have hdig : pyIsDigit (pyStrip p.value) = true := by
      simp only [isFoundedValue, Bool.and_eq_true] at hfound
      exact hfound.1
    have hemp := isEmpty_false_of_pyIsDigit hdig
    have hweb := isWebsiteValue_of_digits hdig
    have hsize := isSizeValue_of_digits hdig
    simp [processDtDd, hemp, hweb, hsize, hfound, hfo]
  · intro hweb hsize hhq hphone h7 h15 hph
    have hfound := isFoundedValue_false_of_phone_chars hphone
    have hne : pyStrip p.value ≠ [] := by
      intro hnil
      rw [hnil] at hphone
      exact absurd hphone (by decide)
    have hemp : (pyStrip p.value).isEmpty = false := by
      simp [List.isEmpty_eq_false, hne]
    simp only [processDtDd, hemp, Bool.false_eq_true, if_false, hweb, hsize,
      hfound, hhq, hphone, if_true]
    rw [if_pos ⟨h7, h15⟩, if_pos hph]

/-- C2 counterexample to the claim as stated: the phone-shaped value
`"+1 206-555-0123, ext. 7"` (digits, `'+'`/`'-'` separators, 12 digits) is
routed to `headquarters` by the earlier comma check, and `phone` stays
unset. -/
theorem claim_C2_counterexample :
    hasPhoneChars (pyStrip phoneCommaPair.value) = true ∧
    7 ≤ phoneDigitCount (pyStrip phoneCommaPair.value) ∧
    phoneDigitCount (pyStrip phoneCommaPair.value) ≤ 15 ∧
    isWebsiteValue (pyStrip phoneCommaPair.value) = false ∧
    emptyOverview.phone = none ∧
    (processDtDd emptyOverview phoneCommaPair).phone = none ∧
    (processDtDd emptyOverview phoneCommaPair).headquarters =
      some phoneCommaValue := by
  decide

/-- Witness for C2 at the value `"10,001+ employees"` on an empty overview. -/
theorem claim_C2_witness :
    (pyStrip (pys "10,001+ employees") ≠ [] ∧
     isWebsiteValue (pyStrip (pys "10,001+ employees")) = false ∧
     isSizeValue (pyStrip (pys "10,001+ employees")) = true ∧
     emptyOverview.company_size = none) ∧
    (processDtDd emptyOverview
        ⟨pys "Company size", pys "10,001+ employees", none⟩).company_size =
      some (firstLineStripped (pyStrip (pys "10,001+ employees"))) :=
  ⟨⟨by decide, by decide, by decide, rfl⟩,
   (claim_C2_classification emptyOverview
      ⟨pys "Company size", pys "10,001+ employees", none⟩).1
     (by decide) (by decide) (by decide) rfl⟩

/-! ## Claim C3 -/

/-- C3: constructing a `Person`, `Company` or `Job` record fails exactly when
its `linkedin_url` lacks the respective path marker, and succeeds storing the
URL (and the record) unchanged whenever the marker is present. -/
theorem claim_C3_url_validation (d : PersonData) (c : CompanyData) (j : JobData) :
    (seqContains personUrlMarker d.linkedin_url = true →
      personConstruct d = Except.ok d) ∧
    (seqContains personUrlMarker d.linkedin_url = false →
      personConstruct d =
        Except.error (pys "Must be a valid LinkedIn profile URL (contains /in/)")) ∧
    (seqContains companyUrlMarker c.linkedin_url = true →
      companyConstruct c = Except.ok c) ∧
    (seqContains companyUrlMarker c.linkedin_url = false →
      companyConstruct c =
        Except.error (pys "Must be a valid LinkedIn company URL (contains /company/)")) ∧
    (seqContains jobUrlMarker j.linkedin_url = true →
      jobConstruct j = Except.ok j) ∧
    (seqContains jobUrlMarker j.linkedin_url = false →
      jobConstruct j =
        Except.error (pys "Must be a valid LinkedIn job URL (contains /jobs)")) := by
  refine ⟨?_, ?_, ?_, ?_, ?_, ?_⟩ <;> intro h
  · simp [personConstruct, validatePersonUrl, h]
  · simp [personConstruct, validatePersonUrl, h]
  · simp [companyConstruct, validateCompanyUrl, h]
  · simp [companyConstruct, validateCompanyUrl, h]
  · simp [jobConstruct, validateJobUrl, h]
  · simp [jobConstruct, validateJobUrl, h]

/-- Witness for C3: a conforming and a non-conforming URL for each model. -/
theorem claim_C3_witness :
    (seqContains personUrlMarker
        (pys "https://www.linkedin.com/in/someone/") = true ∧
     personConstruct
        ⟨pys "https://www.linkedin.com/in/someone/", none, none, none, false,
         [], [], [], [], []⟩ =
       Except.ok
        ⟨pys "https://www.linkedin.com/in/someone/", none, none, none, false,
         [], [], [], [], []⟩) ∧
    (seqContains companyUrlMarker (pys "https://example.com/") = false ∧
     companyConstruct
        ⟨pys "https://example.com/", none, none, none, none, none, none, none,
         none, none, none, none, [], [], []⟩ =
       Except.error
         (pys "Must be a valid LinkedIn company URL (contains /company/)")) ∧
    (seqContains jobUrlMarker
        (pys "https://www.linkedin.com/jobs/view/123/") = true ∧
     jobConstruct
        ⟨pys "https://www.linkedin.com/jobs/view/123/", none, none, none, none,
         none, none, none, none⟩ =
       Except.ok
        ⟨pys "https://www.linkedin.com/jobs/view/123/", none, none, none, none,
         none, none, none, none⟩) :=
  ⟨⟨by decide,
    (claim_C3_url_validation
      ⟨pys "https://www.linkedin.com/in/someone/", none, none, none, false,
       [], [], [], [], []⟩
      ⟨pys "https://example.com/", none, none, none, none, none, none, none,
       none, none, none, none, [], [], []⟩
      ⟨pys "https://www.linkedin.com/jobs/view/123/", none, none, none, none,
       none, none, none, none⟩).1 (by decide)⟩,
   ⟨by decide,
    (claim_C3_url_validation
      ⟨pys "https://www.linkedin.com/in/someone/", none, none, none, false,
       [], [], [], [], []⟩
      ⟨pys "https://example.com/", none, none, none, none, none, none, none,
       none, none, none, none, [], [], []⟩
      ⟨pys "https://www.linkedin.com/jobs/view/123/", none, none, none, none,
       none, none, none, none⟩).2.2.2.1 (by decide)⟩,
   ⟨by decide,
    (claim_C3_url_validation
      ⟨pys "https://www.linkedin.com/in/someone/", none, none, none, false,
       [], [], [], [], []⟩
      ⟨pys "https://example.com/", none, none, none, none, none, none, none,
       none, none, none, none, [], [], []⟩
      ⟨pys "https://www.linkedin.com/jobs/view/123/", none, none, none, none,
       none, none, none, none⟩).2.2.2.2.1 (by decide)⟩⟩

/-! ## Claim C4 -/

/-- C4: the claim fails on the code — on a page whose only rate-limit
indicator is a CAPTCHA iframe, the `RateLimitError` raised by the CAPTCHA
block is swallowed by that block's own `except Exception: pass`, and
`detect_rate_limit` returns normally instead of raising. -/
theorem claim_C4_captcha_swallowed :
    checkpointIndicator captchaOnlyPage.url = false ∧
    captchaOnlyPage.captchaIframeCount > 0 ∧
    captchaCheck captchaOnlyPage.captchaIframeCount =
      Except.error
        ⟨pys "CAPTCHA challenge detected. Manual intervention required.", 3600⟩ ∧
    detectRateLimit captchaOnlyPage = Except.ok () :=
  ⟨rfl, by decide, rfl, rfl⟩

/-! ## Claim C5 -/

/-- C5: `extract_text_safe` is total (never raises): it returns the
whitespace-trimmed text when the lookup finds a non-empty text, and the
caller-supplied default in every other case — empty or `None` text, timeout,
or any other lookup exception. -/
theorem claim_C5_extract_text_safe (o : TextLookup) (d : PyStr) :
    (∀ s, o = TextLookup.found (some s) → s ≠ [] →
      extractTextSafe o d = pyStrip s) ∧
    ((∀ s, o = TextLookup.found (some s) → s = []) →
      extractTextSafe o d = d) := by
  constructor
  · intro s heq hne
    subst heq
    have hemp : s.isEmpty = false := by simp [List.isEmpty_eq_false, hne]
    simp [extractTextSafe, hemp]
  · intro hother
    cases o with
    | found t =>
      cases t with
      | some s =>
        have hs : s = [] := hother s rfl
        subst hs
        simp [extractTextSafe]
      | none => simp [extractTextSafe]
    | timeoutErr => simp [extractTextSafe]
    | failed => simp [extractTextSafe]

/-- Witness for C5 at a found text `"  hello  "` and at a timeout. -/
theorem claim_C5_witness :
    (TextLookup.found (some (pys "  hello  ")) =
        TextLookup.found (some (pys "  hello  ")) ∧
     pys "  hello  " ≠ [] ∧
     extractTextSafe (TextLookup.found (some (pys "  hello  ")))
        (pys "default") = pyStrip (pys "  hello  ")) ∧
    extractTextSafe TextLookup.timeoutErr (pys "default") = pys "default" :=
  ⟨⟨rfl, by decide,
    (claim_C5_extract_text_safe (TextLookup.found (some (pys "  hello  ")))
        (pys "default")).1 (pys "  hello  ") rfl (by decide)⟩,
   (claim_C5_extract_text_safe TextLookup.timeoutErr (pys "default")).2
     (fun s h => nomatch h)⟩

/-! ## Claim C6 -/

/-- C6: for every successfully constructed `Person`, `Company` or `Job`
record, dumping it with `to_dict` and validating the dump back into the model
reproduces the record exactly — the conversion layer is an identity
round-trip. -/
theorem claim_C6_roundtrip (pd p : PersonData) (cd c : CompanyData)
    (jd j : JobData) :
    (personConstruct pd = Except.ok p →
      personModelValidate (personToDict p) = Except.ok p) ∧
    (companyConstruct cd = Except.ok c →
      companyModelValidate (companyToDict c) = Except.ok c) ∧
    (jobConstruct jd = Except.ok j →
      jobModelValidate (jobToDict j) = Except.ok j) := by
  refine ⟨?_, ?_, ?_⟩
  · intro h
    cases hm : seqContains personUrlMarker pd.linkedin_url with
    | false => simp [personConstruct, validatePersonUrl, hm] at h
    | true =>
      simp only [personConstruct, validatePersonUrl, hm, if_true] at h
      obtain rfl : pd = p := by
        cases h
        rfl
      simp [personModelValidate, personToDict, validatePersonUrl, hm]
  · intro h
    cases hm : seqContains companyUrlMarker cd.linkedin_url with
    | false => simp [companyConstruct, validateCompanyUrl, hm] at h
    | true =>
      simp only [companyConstruct, validateCompanyUrl, hm, if_true] at h
      obtain rfl : cd = c := by
        cases h
        rfl
      simp [companyModelValidate, companyToDict, validateCompanyUrl, hm]
  · intro h
    cases hm : seqContains jobUrlMarker jd.linkedin_url with
    | false => simp [jobConstruct, validateJobUrl, hm] at h
    | true =>
      simp only [jobConstruct, validateJobUrl, hm, if_true] at h
      obtain rfl : jd = j := by
        cases h
        rfl
      simp [jobModelValidate, jobToDict, validateJobUrl, hm]

/-- Witness for C6 at concrete `Person`, `Company` and `Job` records. -/
theorem claim_C6_witness :
    (personConstruct
        ⟨pys "https://www.linkedin.com/in/someone/", some (pys "Some One"),
         none, none, false, [], [], [], [], []⟩ =
      Except.ok
        ⟨pys "https://www.linkedin.com/in/someone/", some (pys "Some One"),
         none, none, false, [], [], [], [], []⟩) ∧
    personModelValidate (personToDict
       ⟨pys "https://www.linkedin.com/in/someone/", some (pys "Some One"),
        none, none, false, [], [], [], [], []⟩) =
      Except.ok
       ⟨pys "https://www.linkedin.com/in/someone/", some (pys "Some One"),
        none, none, false, [], [], [], [], []⟩ ∧
    companyModelValidate (companyToDict
       ⟨pys "https://www.linkedin.com/company/acme/", some (pys "Acme"), none,
        none, none, none, none, none, none, none, none, some 7, [], [], []⟩) =
      Except.ok
       ⟨pys "https://www.linkedin.com/company/acme/", some (pys "Acme"), none,
        none, none, none, none, none, none, none, none, some 7, [], [], []⟩ ∧
    jobModelValidate (jobToDict
       ⟨pys "https://www.linkedin.com/jobs/view/123/", some (pys "Engineer"),
        none, none, none, none, none, none, none⟩) =
      Except.ok
       ⟨pys "https://www.linkedin.com/jobs/view/123/", some (pys "Engineer"),
        none, none, none, none, none, none, none⟩ :=
  ⟨rfl,
   (claim_C6_roundtrip
      ⟨pys "https://www.linkedin.com/in/someone/", some (pys "Some One"),
       none, none, false, [], [], [], [], []⟩
      ⟨pys "https://www.linkedin.com/in/someone/", some (pys "Some One"),
       none, none, false, [], [], [], [], []⟩
      ⟨pys "https://www.linkedin.com/company/acme/", some (pys "Acme"), none,
       none, none, none, none, none, none, none, none, some 7, [], [], []⟩
      ⟨pys "https://www.linkedin.com/company/acme/", some (pys "Acme"), none,
       none, none, none, none, none, none, none, none, some 7, [], [], []⟩
      ⟨pys "https://www.linkedin.com/jobs/view/123/", some (pys "Engineer"),
       none, none, none, none, none, none, none⟩
      ⟨pys "https://www.linkedin.com/jobs/view/123/", some (pys "Engineer"),
       none, none, none, none, none, none, none⟩).1 rfl,
   (claim_C6_roundtrip
      ⟨pys "https://www.linkedin.com/in/someone/", some (pys "Some One"),
       none, none, false, [], [], [], [], []⟩
      ⟨pys "https://www.linkedin.com/in/someone/", some (pys "Some One"),
       none, none, false, [], [], [], [], []⟩
      ⟨pys "https://www.linkedin.com/company/acme/", some (pys "Acme"), none,
       none, none, none, none, none, none, none, none, some 7, [], [], []⟩
      ⟨pys "https://www.linkedin.com/company/acme/", some (pys "Acme"), none,
       none, none, none, none, none, none, none, none, some 7, [], [], []⟩
      ⟨pys "https://www.linkedin.com/jobs/view/123/", some (pys "Engineer"),
       none, none, none, none, none, none, none⟩
      ⟨pys "https://www.linkedin.com/jobs/view/123/", some (pys "Engineer"),
       none, none, none, none, none, none, none⟩).2.1 rfl,
   (claim_C6_roundtrip
      ⟨pys "https://www.linkedin.com/in/someone/", some (pys "Some One"),
       none, none, false, [], [], [], [], []⟩
      ⟨pys "https://www.linkedin.com/in/someone/", some (pys "Some One"),
       none, none, false, [], [], [], [], []⟩
      ⟨pys "https://www.linkedin.com/company/acme/", some (pys "Acme"), none,
       none, none, none, none, none, none, none, none, some 7, [], [], []⟩
      ⟨pys "https://www.linkedin.com/company/acme/", some (pys "Acme"), none,
       none, none, none, none, none, none, none, none, some 7, [], [], []⟩
      ⟨pys "https://www.linkedin.com/jobs/view/123/", some (pys "Engineer"),
       none, none, none, none, none, none, none⟩
      ⟨pys "https://www.linkedin.com/jobs/view/123/", some (pys "Engineer"),
       none, none, none, none, none, none, none⟩).2.2 rfl⟩

/-! ## Claim C7 -/

theorem parseNestedItem_fields {cn url : PyStr} {it : NestedPositionDom}
    {e : Experience} (h : parseNestedItem cn url it = some e) :
    e.institution_name = some (pyStrip cn) ∧ e.linkedin_url = some url := by
  unfold parseNestedItem at h
  split at h
  · exact absurd h (by simp)
  · split at h
    · exact absurd h (by simp)
    · split at h
      · obtain rfl := Option.some.inj h
        exact ⟨rfl, rfl⟩
      · exact absurd h (by simp)

/-- C7: `_parse_nested_experience` returns one `Experience` per nested
position its loop body accepts, and every returned record carries the single
employer's name as `institution_name` and the employer's URL as
`linkedin_url`, with title and dates coming from the individual nested
position item. -/
theorem claim_C7_nested_experience (dom : NestedExperienceDom) (cn : PyStr)
    (h1 : dom.hasNestedElements = true)
    (h2 : spanTextAt dom.outerSpans 0 = some cn) :
    (parseNestedExperience dom).length =
      dom.nestedItems.countP
        (fun it => (parseNestedItem cn dom.company_url it).isSome) ∧
    ∀ e ∈ parseNestedExperience dom,
      e.institution_name = some (pyStrip cn) ∧
      e.linkedin_url = some dom.company_url ∧
      ∃ it ∈ dom.nestedItems, parseNestedItem cn dom.company_url it = some e := by
  have hred : parseNestedExperience dom =
      dom.nestedItems.filterMap (parseNestedItem cn dom.company_url) := by
    simp [parseNestedExperience, h1, h2]
  rw [hred]
  constructor
  · exact List.length_filterMap_eq_countP _ _
  · intro e he
    obtain ⟨it, hit, hsome⟩ := List.mem_filterMap.mp he
    obtain ⟨hinst, hurl⟩ := parseNestedItem_fields hsome
    exact ⟨hinst, hurl, it, hit, hsome⟩

/-- Witness for C7 at the synthetic two-role employer entry. -/
theorem claim_C7_witness :
    twoRoleDom.hasNestedElements = true ∧
    spanTextAt twoRoleDom.outerSpans 0 = some (pys "Acme Corp") ∧
    ((parseNestedExperience twoRoleDom).length =
      twoRoleDom.nestedItems.countP
        (fun it =>
          (parseNestedItem (pys "Acme Corp") twoRoleDom.company_url it).isSome) ∧
     ∀ e ∈ parseNestedExperience twoRoleDom,
       e.institution_name = some (pyStrip (pys "Acme Corp")) ∧
       e.linkedin_url = some twoRoleDom.company_url ∧
       ∃ it ∈ twoRoleDom.nestedItems,
         parseNestedItem (pys "Acme Corp") twoRoleDom.company_url it = some e) :=
  ⟨rfl, rfl,
   claim_C7_nested_experience twoRoleDom (pys "Acme Corp") rfl rfl⟩

/-! ## Claim C8 -/

theorem personScrapeBody_shape (steps : List Bool) :
    ∃ n t, personScrapeBody steps = List.replicate n ScrapeEvent.progress ++ [t] ∧
      isTerminalEv t = true := by
  induction steps with
  | nil => exact ⟨0, ScrapeEvent.complete, rfl, rfl⟩
  | cons ok rest ih =>
    cases ok with
    | true =>
      obtain ⟨n, t, heq, ht⟩ := ih
      refine ⟨n + 1, t, ?_, ht⟩
      simp [personScrapeBody, heq, List.replicate_succ]
    | false => exact ⟨0, ScrapeEvent.error, rfl, rfl⟩

theorem companyScrapeBody_shape (steps : List Bool) :
    (∃ n, companyScrapeBody steps =
        List.replicate n ScrapeEvent.progress ++ [ScrapeEvent.complete]) ∨
    (∃ n, companyScrapeBody steps = List.replicate n ScrapeEvent.progress) := by
  induction steps with
  | nil => exact Or.inl ⟨0, rfl⟩
  | cons ok rest ih =>
    cases ok with
    | true =>
      rcases ih with ⟨n, heq⟩ | ⟨n, heq⟩
      · exact Or.inl ⟨n + 1, by simp [companyScrapeBody, heq, List.replicate_succ]⟩
      · exact Or.inr ⟨n + 1, by simp [companyScrapeBody, heq, List.replicate_succ]⟩
    | false => exact Or.inr ⟨0, rfl⟩

theorem last_terminal_decomp :
    ∀ (l : List ScrapeEvent) (t : ScrapeEvent),
      (∀ x ∈ l, isTerminalEv x = false) →
      ∀ pre ev post, l ++ [t] = pre ++ ev :: post → isTerminalEv ev = true →
        post = [] := by
  intro l
  induction l with
  | nil =>
    intro t _ pre ev post heq hterm
    cases pre with
    | nil =>
      simp only [List.nil_append] at heq
      injection heq with h1 h2
      exact h2.symm
    | cons p pre' =>
      simp only [List.nil_append, List.cons_append] at heq
      injection heq with h1 h2
      exact absurd h2.symm (by simp)
  | cons x l' ih =>
    intro t hl pre ev post heq hterm
    cases pre with
    | nil =>
      simp only [List.cons_append, List.nil_append] at heq
      injection heq with h1 h2
      have hx := hl x (List.mem_cons_self x l')
      rw [← h1] at hterm
      rw [hx] at hterm
      exact absurd hterm (by simp)
    | cons p pre' =>
      simp only [List.cons_append] at heq
      injection heq with h1 h2
      exact ih t (fun y hy => hl y (List.mem_cons_of_mem x hy)) pre' ev post h2 hterm

theorem no_terminal_in (l : List ScrapeEvent)
    (hl : ∀ x ∈ l, isTerminalEv x = false) :
    ∀ pre ev post, l = pre ++ ev :: post → isTerminalEv ev = true → False := by
  intro pre ev post heq hterm
  have hev : ev ∈ l := by
    rw [heq]
    exact List.mem_append_right _ (List.mem_cons_self _ _)
  rw [hl ev hev] at hterm
  exact absurd hterm (by simp)

theorem replicate_progress_no_terminal (n : Nat) :
    ∀ x ∈ List.replicate n ScrapeEvent.progress, isTerminalEv x = false := by
  intro x hx
  rw [(List.mem_replicate.mp hx).2]
  rfl

theorem trace_props (body : List ScrapeEvent) (n : Nat) (t : ScrapeEvent)
    (hb : body = List.replicate n ScrapeEvent.progress ++ [t])
    (ht : isTerminalEv t = true) :
    (ScrapeEvent.start :: body).count ScrapeEvent.start = 1 ∧
    noProgressAfterTerminal (ScrapeEvent.start :: body) ∧
    t ∈ ScrapeEvent.start :: body := by
  refine ⟨?_, ?_, ?_⟩
  · have hnm : ScrapeEvent.start ∉ body := by
      rw [hb]
      intro hmem
      rcases List.mem_append.mp hmem with h | h
      · exact absurd (List.mem_replicate.mp h).2 (by simp)
      · rw [← List.mem_singleton.mp h] at ht
        exact absurd ht (by simp [isTerminalEv])
    rw [List.count_cons_self, List.count_eq_zero.mpr hnm]
  · intro pre ev post heq hterm
    cases pre with
    | nil =>
      injection heq with h1 h2
      rw [← h1] at hterm
      exact absurd hterm (by simp [isTerminalEv])
    | cons p pre' =>
      injection heq with h1 h2
      rw [hb] at h2
      have := last_terminal_decomp (List.replicate n ScrapeEvent.progress) t
        (replicate_progress_no_terminal n) pre' ev post h2 hterm
      rw [this]
      simp
  · rw [hb]
    exact List.mem_cons_of_mem _ (List.mem_append_right _ (List.mem_singleton.mpr rfl))

theorem trace_props_nofail (body : List ScrapeEvent) (n : Nat)
    (hb : body = List.replicate n ScrapeEvent.progress) :
    (ScrapeEvent.start :: body).count ScrapeEvent.start = 1 ∧
    noProgressAfterTerminal (ScrapeEvent.start :: body) := by
  constructor
  · have hnm : ScrapeEvent.start ∉ body := by
      rw [hb]
      intro hmem
      exact absurd (List.mem_replicate.mp hmem).2 (by simp)
    rw [List.count_cons_self, List.count_eq_zero.mpr hnm]
  · intro pre ev post heq hterm
    cases pre with
    | nil =>
      injection heq with h1 h2
      rw [← h1] at hterm
      exact absurd hterm (by simp [isTerminalEv])
    | cons p pre' =>
      injection heq with h1 h2
      rw [hb] at h2
      exact absurd hterm
        (by
          have := no_terminal_in (List.replicate n ScrapeEvent.progress)
            (replicate_progress_no_terminal n) pre' ev post h2
          intro hterm2
          exact this hterm2)

theorem complete_mem_companyBody (steps : List Bool)
    (h : ∀ b ∈ steps, b = true) :
    ScrapeEvent.complete ∈ companyScrapeBody steps := by
  induction steps with
  | nil => exact List.mem_singleton.mpr rfl
  | cons ok rest ih =>
    have hok : ok = true := h ok (List.mem_cons_self ok rest)
    rw [hok]
    simp only [companyScrapeBody, if_true]
    exact List.mem_cons_of_mem _ (ih (fun b hb => h b (List.mem_cons_of_mem ok hb)))

/-- C8 (amended): for `PersonScraper.scrape` the callback protocol holds as
claimed — exactly one `on_start`, at least one terminal `on_complete` or
`on_error`, and no `on_progress` after a terminal notification.  For
`CompanyScraper.scrape`, which wraps its body in no `try`/`except` and never
calls `on_error`, one `on_start` and the no-progress-after-terminal property
hold, but a terminal notification is only guaranteed when every phase
succeeds. -/
theorem claim_C8_callback_protocol (steps : List Bool) :
    ((personScrapeEvents steps).count ScrapeEvent.start = 1 ∧
     (ScrapeEvent.complete ∈ personScrapeEvents steps ∨
      ScrapeEvent.error ∈ personScrapeEvents steps) ∧
     noProgressAfterTerminal (personScrapeEvents steps)) ∧
    ((companyScrapeEvents steps).count ScrapeEvent.start = 1 ∧
     noProgressAfterTerminal (companyScrapeEvents steps) ∧
     ((∀ b ∈ steps, b = true) →
       ScrapeEvent.complete ∈ companyScrapeEvents steps)) := by
  constructor
  · obtain ⟨n, t, hb, ht⟩ := personScrapeBody_shape steps
    obtain ⟨hc, hnp, hmem⟩ := trace_props (personScrapeBody steps) n t hb ht
    refine ⟨hc, ?_, hnp⟩
    have hterm : t = ScrapeEvent.complete ∨ t = ScrapeEvent.error := by
      cases t <;> simp [isTerminalEv] at ht <;> simp
    rcases hterm with rfl | rfl
    · exact Or.inl hmem
    · exact Or.inr hmem
  · rcases companyScrapeBody_shape steps with ⟨n, hb⟩ | ⟨n, hb⟩
    · obtain ⟨hc, hnp, _⟩ :=
        trace_props (companyScrapeBody steps) n ScrapeEvent.complete hb rfl
      exact ⟨hc, hnp,
        fun h => List.mem_cons_of_mem _ (complete_mem_companyBody steps h)⟩
    · obtain ⟨hc, hnp⟩ := trace_props_nofail (companyScrapeBody steps) n hb
      exact ⟨hc, hnp,
        fun h => List.mem_cons_of_mem _ (complete_mem_companyBody steps h)⟩

/-- C8 counterexample to the claim as stated: when the first phase of
`CompanyScraper.scrape` raises, the trace contains neither `on_complete` nor
`on_error` — no terminal notification is delivered. -/
theorem claim_C8_counterexample :
    ScrapeEvent.complete ∉ companyScrapeEvents [false] ∧
    ScrapeEvent.error ∉ companyScrapeEvents [false] := by
  decide

/-- Witness for C8 at a one-phase successful scrape. -/
theorem claim_C8_witness :
    ((personScrapeEvents [true]).count ScrapeEvent.start = 1 ∧
     (ScrapeEvent.complete ∈ personScrapeEvents [true] ∨
      ScrapeEvent.error ∈ personScrapeEvents [true]) ∧
     noProgressAfterTerminal (personScrapeEvents [true])) ∧
    ((companyScrapeEvents [true]).count ScrapeEvent.start = 1 ∧
     noProgressAfterTerminal (companyScrapeEvents [true]) ∧
     ((∀ b ∈ [true], b = true) →
       ScrapeEvent.complete ∈ companyScrapeEvents [true])) :=
  claim_C8_callback_protocol [true]

/-! ## Claim C9 -/

theorem scrollIterate_le (heights : Nat → Nat × Nat) :
    ∀ k i, scrollIterate heights k i ≤ i + k := by
  intro k
  induction k with
  | zero => intro i; simp [scrollIterate]
  | succ k ih =>
    intro i
    simp only [scrollIterate]
    split
    · omega
    · have := ih (i + 1)
      omega

theorem scrollIterate_stop (heights : Nat → Nat × Nat) :
    ∀ k i j, i ≤ j → j < i + k →
      (∀ m, i ≤ m → m < j → (heights m).1 ≠ (heights m).2) →
      (heights j).1 = (heights j).2 →
      scrollIterate heights k i = j + 1 := by
  intro k
  induction k with
  | zero =>
    intro i j hij hlt _ _
    exact absurd hlt (by omega)
  | succ k ih =>
    intro i j hij hlt hne heq
    simp only [scrollIterate]
    by_cases hi : (heights i).1 = (heights i).2
    · rw [if_pos hi]
      rcases Nat.eq_or_lt_of_le hij with rfl | hlt2
      · rfl
      · exact absurd hi (hne i (le_refl i) hlt2)
    · rw [if_neg hi]
      have hij2 : i + 1 ≤ j := by
        rcases Nat.eq_or_lt_of_le hij with rfl | h
        · exact absurd heq hi
        · omega
      exact ih (i + 1) j hij2 (by omega) (fun m hm1 hm2 => hne m (by omega) hm2) heq

theorem scrollIterate_exhaust (heights : Nat → Nat × Nat) :
    ∀ k i, (∀ m, i ≤ m → m < i + k → (heights m).1 ≠ (heights m).2) →
      scrollIterate heights k i = i + k := by
  intro k
  induction k with
  | zero => intro i _; simp [scrollIterate]
  | succ k ih =>
    intro i hne
    simp only [scrollIterate]
    rw [if_neg (hne i (le_refl i) (by omega))]
    have := ih (i + 1) (fun m h1 h2 => hne m (by omega) (by omega))
    omega

/-- C9: `scroll_to_bottom` performs at most `max_scrolls` scroll-and-pause
iterations, stops right after the first iteration whose height after the
scroll equals the height before it, and runs all `max_scrolls` iterations
when the page keeps growing — in every case it finishes normally (the
function is total and `break`/loop exhaustion are its only exits). -/
theorem claim_C9_scroll_to_bottom (heights : Nat → Nat × Nat)
    (max_scrolls : Nat) :
    scrollToBottomIterations heights max_scrolls ≤ max_scrolls ∧
    (∀ j, j < max_scrolls →
      (∀ m, m < j → (heights m).1 ≠ (heights m).2) →
      (heights j).1 = (heights j).2 →
      scrollToBottomIterations heights max_scrolls = j + 1) ∧
    ((∀ j, j < max_scrolls → (heights j).1 ≠ (heights j).2) →
      scrollToBottomIterations heights max_scrolls = max_scrolls) := by
  refine ⟨?_, ?_, ?_⟩
  · have := scrollIterate_le heights max_scrolls 0
    simpa [scrollToBottomIterations] using this
  · intro j hj hne heq
    exact scrollIterate_stop heights max_scrolls 0 j (Nat.zero_le j)
      (by omega) (fun m _ hm => hne m hm) heq
  · intro hne
    have := scrollIterate_exhaust heights max_scrolls 0
      (fun m _ hm => hne m (by omega))
    simpa [scrollToBottomIterations] using this

/-- Witness for C9: heights that stop growing at iteration 1 under a bound
of 10 give exactly 2 iterations. -/
theorem claim_C9_witness :
    (1 < 10 ∧ (∀ m, m < 1 → (twoScrollHeights m).1 ≠ (twoScrollHeights m).2) ∧
     (twoScrollHeights 1).1 = (twoScrollHeights 1).2) ∧
    scrollToBottomIterations twoScrollHeights 10 = 2 :=
  ⟨⟨by decide,
    fun m hm => by
      have hm0 : m = 0 := Nat.lt_one_iff.mp hm
      rw [hm0]
      decide,
    rfl⟩,
   (claim_C9_scroll_to_bottom twoScrollHeights 10).2.1 1 (by decide)
     (fun m hm => by
       have hm0 : m = 0 := Nat.lt_one_iff.mp hm
       rw [hm0]
       decide)
     rfl⟩

/-! ## Claim C10 -/

/-- C10: the contact-extraction interface is inconsistent with the published
data model — `Interest` is imported by the person scraper but absent from the
models package's exports, and every
`Contact(type=..., value=..., label=...)` call performed by `_get_contacts`
fails validation because the required `name` field is never supplied (the
model defines no `type`, `value` or `label` field). -/
theorem claim_C10_contact_interface :
    (pys "Interest" ∈ personScraperModelImports ∧
     pys "Interest" ∉ modelsExports) ∧
    ∀ t v l, getContactsContactCall t v l =
      Except.error (pys "Field required: name") := by
  refine ⟨⟨by decide, by decide⟩, ?_⟩
  intro t v l
  rfl

end LinkedinScraper
